import Mathlib

/-!
Verification of the audio-to-text batch transcription pipeline
(src/audio_processor.py) against its natural-language specification.

The Python source is shallowly embedded: every definition below mirrors a
function (or a constant appearing in a function) of `AudioProcessor` in
src/audio_processor.py.  External effects (the HTTP stream, the ffmpeg
subprocess, the Whisper model call, the file system) are passed in
explicitly as oracle arguments, so that each embedded function is a pure,
executable Lean function whose control flow matches the source line by
line.  Durations that the source handles as floating-point seconds are
embedded as integer milliseconds (all thresholds in the source are exact
multiples of 0.1 s, so no behaviour is lost).

String primitives of the source (lower-casing, substring test, strip,
join) are re-implemented over `List Char` so that every theorem can be
evaluated on concrete inputs by `decide`.
-/

/-! ## String helpers (Python `str.lower`, `in`, `strip`, `join`) -/

/-- Python `s.lower()`: lower-case every character. -/
def pyLower (s : String) : String := ⟨s.data.map Char.toLower⟩

/-- Character-list version of Python `str.startswith`. -/
def startsWithChars : List Char → List Char → Bool
  | [], _ => true
  | _ :: _, [] => false
  | p :: ps, c :: cs => p == c && startsWithChars ps cs

/-- Character-list version of Python `pat in s` (substring occurrence). -/
def hasSubChars (s pat : List Char) : Bool :=
  match s with
  | [] => pat.isEmpty
  | _ :: tl => startsWithChars pat s || hasSubChars tl pat

/-- Python `pat in s` on strings. -/
def pyContains (s pat : String) : Bool := hasSubChars s.data pat.data

/-- Python `s.strip()`: drop leading and trailing whitespace. -/
def pyStrip (s : String) : String :=
  ⟨(((s.data.dropWhile Char.isWhitespace).reverse.dropWhile Char.isWhitespace).reverse)⟩

/-- Python `sep.join(parts)`. -/
def pyJoin (sep : String) : List String → String
  | [] => ""
  | [x] => x
  | x :: xs => x ++ sep ++ pyJoin sep xs

/-! ## C10 — `AudioProcessor._validate_audio_file` (lines 846-901)

The file-system facts the source queries are passed as arguments:
whether the file exists, its byte size, and the result of the pydub
duration probe (`AudioSegment.from_file`): `some durationMs` when the
probe decodes the file, `none` when the probe raises.  The size-under-1KB
check and the over-one-hour check in the source only log warnings and do
not change the returned value, so they do not appear in the result. -/

/-- Embedding of `_validate_audio_file`.  `probe = none` models the pydub
load raising an exception (the source then returns `True` from the inner
`except` handler); `probe = some d` gives the decoded duration in ms. -/
def validate_audio_file (fileExists : Bool) (sizeBytes : Nat)
    (probe : Option Nat) : Bool :=
  if !fileExists then false
  else if sizeBytes == 0 then false
  else
    match probe with
    | some durationMs =>
        -- `duration < 0.1` seconds fails the validation
        if durationMs < 100 then false else true
    | none => true

/-! ## C8 — ffmpeg invocation timeouts

One record per `subprocess.run([...ffmpeg...], timeout=N)` call in the
source, with the preset name and the timeout in seconds. -/

/-- One external-transcoder invocation: which normalization preset and the
`timeout=` argument of its `subprocess.run` call. -/
structure FfmpegInvocation where
  preset : String
  timeoutSec : Nat
  deriving DecidableEq, Repr

/-- `convert_audio_format` (line 507): aggressive preset, `timeout=60`. -/
def convert_audio_format_call : FfmpegInvocation := ⟨"aggressive", 60⟩

/-- `_fallback_conversion` (line 809): basic-parameter fallback preset,
`timeout=30`. -/
def fallback_conversion_call : FfmpegInvocation := ⟨"fallback_basic", 30⟩

/-- `_transcribe_with_basic_conversion` (line 1007): basic preset,
`timeout=60`. -/
def basic_conversion_call : FfmpegInvocation := ⟨"basic", 60⟩

/-- `_transcribe_ultra_basic` (line 1340): ultra-basic preset,
`timeout=120`. -/
def ultra_basic_call : FfmpegInvocation := ⟨"ultra_basic", 120⟩

/-- `_transcribe_with_safe_mode` (line 1079): loudness-normalized
safe-mode preset, `timeout=120`. -/
def safe_mode_call : FfmpegInvocation := ⟨"safe_mode", 120⟩

/-- Every ffmpeg invocation of the source, in source order. -/
def ffmpeg_invocations : List FfmpegInvocation :=
  [convert_audio_format_call, fallback_conversion_call, basic_conversion_call,
   ultra_basic_call, safe_mode_call]

/-! ## C9 — `AudioProcessor.download_audio` (lines 444-476)

The source opens the FINAL destination path directly (`open(output_path,
'wb')`) and streams 8192-byte chunks into it; any exception is caught and
the function returns `False`, leaving whatever bytes were already written
at the destination.  The embedding passes the byte stream as a list of
chunks and the failure point as an oracle:
`failure = none` means the stream completes; `failure = some k` means the
stream raises after `k` chunks were written (`k` may be `0`: failure on
the first read still happens after the destination was opened and
truncated).  A failure of `requests.get`/`raise_for_status` happens
before the destination is opened and is modeled by `preOpenFail`. -/

/-- A file system as a map from path to byte content. -/
def Fs : Type := String → Option (List Nat)

/-- Write `content` at `path`. -/
def fsWrite (fs : Fs) (path : String) (content : List Nat) : Fs :=
  fun p => if p = path then some content else fs p

/-- Embedding of `download_audio`: returns the boolean result of the
source together with the file system after the call. -/
def download_audio (chunks : List (List Nat)) (preOpenFail : Bool)
    (failure : Option Nat) (fs : Fs) (outputPath : String) : Bool × Fs :=
  if preOpenFail then
    -- requests.get / raise_for_status raised: destination untouched
    (false, fs)
  else
    match failure with
    | none => (true, fsWrite fs outputPath (chunks.flatten))
    | some k => (false, fsWrite fs outputPath ((chunks.take k).flatten))

/-! ## Theorems for C10, C8, C9 -/

/-- C10: for an existing, non-empty file whose pydub duration probe
raises, `_validate_audio_file` returns `True`: the file proceeds with no
duration check, the under-100ms fail-fast rule not applied. -/
theorem validate_skips_duration_check_on_probe_error
    (sizeBytes : Nat) (hsz : 0 < sizeBytes) :
    validate_audio_file true sizeBytes none = true := by
  unfold validate_audio_file
  simp [Nat.pos_iff_ne_zero.mp hsz]

/-- Witness for C10 at a concrete 2048-byte file. -/
theorem validate_skips_duration_check_on_probe_error_witness :
    0 < 2048 ∧ validate_audio_file true 2048 none = true :=
  ⟨by decide, validate_skips_duration_check_on_probe_error 2048 (by decide)⟩

/-- C8 counterexample: the basic fallback conversion
(`_fallback_conversion`, line 809) invokes ffmpeg with `timeout=30`,
which does not lie in the claimed 60..120 range. -/
theorem ffmpeg_timeout_claim_counterexample :
    fallback_conversion_call ∈ ffmpeg_invocations ∧
      ¬(60 ≤ fallback_conversion_call.timeoutSec ∧
        fallback_conversion_call.timeoutSec ≤ 120) := by
  decide

/-- C8 amended: every ffmpeg invocation runs with a bounded timeout
between 30 and 120 seconds inclusive (the basic fallback conversion uses
30 s; all other presets use 60-120 s). -/
theorem ffmpeg_timeouts_bounded (c : FfmpegInvocation)
    (hc : c ∈ ffmpeg_invocations) :
    30 ≤ c.timeoutSec ∧ c.timeoutSec ≤ 120 := by
  fin_cases hc <;> decide

/-- Witness for the amended C8 bound at the aggressive preset. -/
theorem ffmpeg_timeouts_bounded_witness :
    30 ≤ convert_audio_format_call.timeoutSec ∧
      convert_audio_format_call.timeoutSec ≤ 120 :=
  ffmpeg_timeouts_bounded convert_audio_format_call (by decide)

/-- C9 counterexample: a download of a two-chunk stream that fails after
the first chunk returns `False` but leaves the first chunk written under
the final destination name — a partially-written file, not the full
stream, sits at the destination. -/
theorem download_partial_file_counterexample :
    (download_audio [[1, 2], [3, 4]] false (some 1)
        (fun _ => none) "call.mp3").1 = false ∧
      (download_audio [[1, 2], [3, 4]] false (some 1)
        (fun _ => none) "call.mp3").2 "call.mp3" = some [1, 2] ∧
      some [1, 2] ≠ some [1, 2, 3, 4] := by
  refine ⟨rfl, ?_, by decide⟩
  show fsWrite (fun _ => none) "call.mp3" [1, 2] "call.mp3" = some [1, 2]
  simp [fsWrite]

/-- C9 amended: on a mid-stream failure `download_audio` returns `False`
(fails loudly), but because it writes directly to the final destination
name, the destination is left holding exactly the prefix of chunks
received before the failure; only a completed download leaves the full
stream there, and only a pre-open failure leaves the destination
untouched. -/
theorem download_failure_keeps_written_chunks
    (chunks : List (List Nat)) (k : Nat) (fs : Fs) (path : String)
    (hk : k < chunks.length) :
    (download_audio chunks false (some k) fs path).1 = false ∧
      (download_audio chunks false (some k) fs path).2 path
        = some ((chunks.take k).flatten) ∧
      (download_audio chunks true (some k) fs path).2 = fs := by
  refine ⟨rfl, ?_, rfl⟩
  show fsWrite fs path ((chunks.take k).flatten) path = _
  simp [fsWrite]

/-- Witness for the amended C9 statement at a concrete failing stream. -/
theorem download_failure_keeps_written_chunks_witness :
    (1 : Nat) < 2 ∧
      (download_audio [[1, 2], [3, 4]] false (some 1)
          (fun _ => none) "a.mp3").1 = false :=
  ⟨by decide,
   (download_failure_keeps_written_chunks [[1, 2], [3, 4]] 1
      (fun _ => none) "a.mp3" (by decide)).1⟩

/-! ## C2, C5 — fallback orchestration and engine-error classification

`AudioProcessor._transcribe_with_fallbacks` (lines 903-935) validates the
file and then calls ONLY `_transcribe_with_safe_mode`; the other strategy
methods (`_transcribe_with_aggressive_conversion`,
`_transcribe_with_basic_conversion`, `_transcribe_with_pydub`,
`_transcribe_ultra_basic`, `_transcribe_direct`) are defined in the file
but have no caller reachable from `transcribe_audio`.

The embedding gives every strategy an oracle outcome (what the strategy
would return if it were invoked) and records, alongside the result, the
trace of strategies the orchestrator actually invoked. -/

/-- Names for the transcription strategies of the source file. -/
inductive Strat where
  | aggressive      -- _transcribe_with_aggressive_conversion
  | basicConv       -- _transcribe_with_basic_conversion
  | pydubRenorm     -- _transcribe_with_pydub
  | ultraBasic      -- _transcribe_ultra_basic
  | direct          -- _transcribe_direct
  | safeMode        -- _transcribe_with_safe_mode
  | segmentSplit    -- _transcribe_by_segments
  deriving DecidableEq, Repr

/-- Outcome a strategy would produce if invoked: a transcript string, a
plain failure (conversion failed / generic exception, the method returns
None), or a `RuntimeError` from the Whisper engine carrying its message. -/
inductive StratRes where
  | ok (text : String)
  | failed
  | rtErr (msg : String)
  deriving DecidableEq, Repr

/-- Per-call environment of the orchestrator: the validation verdict and
the oracle outcome of each strategy. -/
structure FallbackEnv where
  valid : Bool
  outcome : Strat → StratRes

/-- Keyword list of the safe-mode `RuntimeError` handler (line 1133):
`["reshape", "tensor", "0 elements"]`, matched against the lower-cased
message. -/
def safe_mode_keywords : List String := ["reshape", "tensor", "0 elements"]

/-- Safe-mode classification: `any(word in error_msg for word in [...])`
with `error_msg = str(e).lower()`. -/
def tensorLike (msg : String) : Bool :=
  safe_mode_keywords.any (fun w => pyContains (pyLower msg) w)

/-- Where a `RuntimeError` raised inside a strategy sends control. -/
inductive ErrRoute where
  | toSegmentSplit   -- jump to _transcribe_by_segments
  | toSafeMode       -- retry via _transcribe_with_safe_mode
  | strategyFails    -- swallowed, the strategy returns None
  | reraised         -- re-raised past the strategy body
  deriving DecidableEq, Repr

/-- Routing of a `RuntimeError` inside `_transcribe_with_safe_mode`
(lines 1131-1148): tensor/reshape/0-elements messages jump to
`_transcribe_by_segments`; any other message is re-raised and then caught
by the outer `except Exception` of the same method (line 1150), which
returns None, so the strategy fails. -/
def safe_mode_runtime_route (msg : String) : ErrRoute :=
  if tensorLike msg then .toSegmentSplit else .strategyFails

/-- Routing of a `RuntimeError` inside
`_transcribe_with_aggressive_conversion` (lines 981-986): only messages
containing "tensor" are treated as recoverable, and they route to
`_transcribe_with_safe_mode`, not to segment-split; every other message
is re-raised to the caller (there is no outer handler in that method). -/
def aggressive_runtime_route (msg : String) : ErrRoute :=
  if pyContains (pyLower msg) "tensor" then .toSafeMode else .reraised

/-- Result of `_transcribe_by_segments` as seen from safe mode: a
transcript on success, None on failure (the method catches all its own
exceptions). -/
def segmentSplitResult (env : FallbackEnv) : Option String :=
  match env.outcome .segmentSplit with
  | .ok t => if t ≠ "" then some t else none
  | _ => none

/-- Embedding of `_transcribe_with_safe_mode` over the strategy oracle:
its own result plus whether it escalated to segment-split. -/
def transcribe_with_safe_mode (env : FallbackEnv) : Option String × Bool :=
  match env.outcome .safeMode with
  | .ok t =>
      -- line 1124: `if transcript:` — empty text is reported as None
      if t ≠ "" then (some t, false) else (none, false)
  | .failed => (none, false)
  | .rtErr msg =>
      match safe_mode_runtime_route msg with
      | .toSegmentSplit => (segmentSplitResult env, true)
      | _ => (none, false)    -- re-raise, outer except Exception → None

/-- Embedding of `_transcribe_with_fallbacks` (lines 903-935): validate,
then call safe mode — nothing else.  The second component is the list of
strategies the orchestrator invoked, in order. -/
def transcribe_with_fallbacks (env : FallbackEnv) :
    Option String × List Strat :=
  if !env.valid then (none, [])
  else
    let sm := transcribe_with_safe_mode env
    (sm.1, if sm.2 then [.safeMode, .segmentSplit] else [.safeMode])

/-- The strategy chain the specification describes, in trial order. -/
def spec_chain : List Strat :=
  [.aggressive, .basicConv, .pydubRenorm, .ultraBasic, .direct, .safeMode]

/-- Orchestrator written from the words of the specification (refinement
comparison only — this is NOT translated from the source): try the chain
in order, return the first non-empty success, jump to segment-split on a
tensor-like runtime error, fail when the chain is exhausted. -/
def spec_fallback_orchestrator_go (env : FallbackEnv) :
    List Strat → Option String
  | [] => none
  | s :: rest =>
      match env.outcome s with
      | .ok t => if t ≠ "" then some t else spec_fallback_orchestrator_go env rest
      | .failed => spec_fallback_orchestrator_go env rest
      | .rtErr msg =>
          if tensorLike msg then segmentSplitResult env
          else spec_fallback_orchestrator_go env rest

/-- Spec-described orchestrator over the whole chain. -/
def spec_fallback_orchestrator (env : FallbackEnv) : Option String :=
  if !env.valid then none else spec_fallback_orchestrator_go env spec_chain

/-- Environment where the aggressive strategy would succeed with "A" but
safe mode fails plainly. -/
def envAggressiveWins : FallbackEnv where
  valid := true
  outcome := fun s => match s with
    | .aggressive => .ok "A"
    | _ => .failed

/-- C2 counterexample: on a file where the aggressive-conversion strategy
would succeed but safe mode fails, the orchestrator described by the
claim returns the aggressive transcript, while the code fails the call
having attempted only safe mode — the chain of the claim is not what the
code runs. -/
theorem fallback_chain_counterexample :
    spec_fallback_orchestrator envAggressiveWins = some "A" ∧
      (transcribe_with_fallbacks envAggressiveWins).1 = none ∧
      (transcribe_with_fallbacks envAggressiveWins).2 = [Strat.safeMode] ∧
      Strat.aggressive ∉ (transcribe_with_fallbacks envAggressiveWins).2 := by
  refine ⟨rfl, rfl, rfl, ?_⟩
  decide

/-- C2 amended: the orchestrator validates the file and then invokes only
the safe-mode strategy; its result is exactly the safe-mode result, a
tensor/reshape/0-elements runtime error inside safe mode escalates to
segment-split, and the aggressive, basic, pydub, ultra-basic and direct
strategies are never invoked on any input. -/
theorem fallback_orchestrator_only_safe_mode (env : FallbackEnv) :
    (env.valid = false → transcribe_with_fallbacks env = (none, [])) ∧
      (env.valid = true →
        (transcribe_with_fallbacks env).1 = (transcribe_with_safe_mode env).1 ∧
        ((transcribe_with_fallbacks env).2 = [Strat.safeMode] ∨
          (transcribe_with_fallbacks env).2 = [Strat.safeMode, Strat.segmentSplit])) ∧
      ∀ s, s ∈ (transcribe_with_fallbacks env).2 →
        s = Strat.safeMode ∨ s = Strat.segmentSplit := by
  refine ⟨fun hv => ?_, fun hv => ?_, fun s hs => ?_⟩
  · simp [transcribe_with_fallbacks, hv]
  · constructor
    · simp [transcribe_with_fallbacks, hv]
    · by_cases h2 : (transcribe_with_safe_mode env).2
      · right; simp [transcribe_with_fallbacks, hv, h2]
      · left
        simp only [Bool.not_eq_true] at h2
        simp [transcribe_with_fallbacks, hv, h2]
  · by_cases hv : env.valid
    · by_cases h2 : (transcribe_with_safe_mode env).2 <;>
        · simp only [transcribe_with_fallbacks, hv, h2] at hs
          simp_all
    · simp only [Bool.not_eq_true] at hv
      simp [transcribe_with_fallbacks, hv] at hs

/-- Witness for the amended C2 statement: a valid file whose safe-mode
strategy fails attempts exactly the safe-mode strategy. -/
theorem fallback_orchestrator_only_safe_mode_witness :
    envAggressiveWins.valid = true ∧
      (transcribe_with_fallbacks envAggressiveWins).2 = [Strat.safeMode] ∨
        (transcribe_with_fallbacks envAggressiveWins).2
          = [Strat.safeMode, Strat.segmentSplit] := by
  exact Or.inl ⟨rfl,
    ((fallback_orchestrator_only_safe_mode envAggressiveWins).2.1 rfl).2.resolve_right
      (by decide)⟩

/-! ## C7 — `AudioProcessor._format_transcript` (lines 525-615)

The whole body of `_format_transcript` sits in one `try`; the `except
Exception` handler returns `result.get("text", "").strip()`.  The body is
embedded below (`format_transcript_body`); the regex pipeline
`_apply_basic_formatting` (lines 617-701) is passed in as a function
argument `fmt`, and segment times (floats in the source) are integer
milliseconds.  Whether an exception occurs somewhere inside the body
(e.g. from a malformed segment record) is an oracle `exn`. -/

/-- Python `s.rstrip()`. -/
def pyRstrip (s : String) : String :=
  ⟨(s.data.reverse.dropWhile Char.isWhitespace).reverse⟩

/-- Python `s.split()` (split on whitespace runs, no empty parts):
character-level accumulator version. -/
def splitWsAux : List Char → List Char → List (List Char)
  | [], cur => if cur.isEmpty then [] else [cur.reverse]
  | c :: cs, cur =>
      if c.isWhitespace then
        if cur.isEmpty then splitWsAux cs []
        else cur.reverse :: splitWsAux cs []
      else splitWsAux cs (c :: cur)

/-- Python `s.split()`. -/
def pySplit (s : String) : List String :=
  (splitWsAux s.data []).map fun l => ⟨l⟩

/-- Reversed-digit comma grouping for Python `format(n, ',')`. -/
def commaRev : List Char → List Char
  | a :: b :: c :: d :: rest => a :: b :: c :: ',' :: commaRev (d :: rest)
  | l => l

/-- Python `f"{n:,}"`: decimal digits grouped in threes by commas. -/
def pyThousands (n : Nat) : String := ⟨(commaRev n.repr.data.reverse).reverse⟩

/-- Python `f"{n:02d}"` for the non-negative values `_format_time`
produces. -/
def pad2 (n : Int) : String :=
  if 0 ≤ n && n < 10 then "0" ++ n.natAbs.repr
  else if 0 ≤ n then n.natAbs.repr
  else "-" ++ n.natAbs.repr

/-- Embedding of `_format_time` (lines 703-715): seconds-as-float in the
source, milliseconds here; `MM:SS` output. -/
def format_time (ms : Int) : String :=
  pad2 (ms / 60000) ++ ":" ++ pad2 ((ms % 60000) / 1000)

/-- One Whisper segment (times in ms; floats in the source). -/
structure WhisperSeg where
  startMs : Int
  endMs : Int
  text : String
  deriving Repr

/-- The Whisper transcription result consumed by `_format_transcript`. -/
structure WhisperResult where
  text : String
  segments : List WhisperSeg
  deriving Repr

/-- The 60-character `=` banner of the source. -/
def bannerLine : String := ⟨List.replicate 60 '='⟩

/-- The block-grouping loop of `_format_transcript` (lines 554-596):
walks the segments with the accumulated block texts and the start of the
current block, flushing a `[MM:SS - MM:SS]` header, the combined text and
a blank line every time the source sets `should_break` (over 30 s
accumulated, over 2 s gap to the next segment, or last segment).  A
leftover block whose closing segments all had empty text is dropped, as
in the source. -/
def format_blocks (fmt : String → String) :
    List WhisperSeg → List String → Option Int → List String
  | [], _, _ => []
  | seg :: rest, cur, curStart =>
      let text := pyStrip seg.text
      if text = "" then format_blocks fmt rest cur curStart
      else
        let blockStart := curStart.getD seg.startMs
        let cur2 := cur ++ [text]
        let accumulated := seg.endMs - blockStart
        let gap : Int := match rest with
          | [] => 0
          | nxt :: _ => nxt.startMs - seg.endMs
        if accumulated > 30000 || gap > 2000 || rest.isEmpty then
          ("[" ++ format_time blockStart ++ " - " ++ format_time seg.endMs ++ "]")
            :: fmt (pyJoin " " cur2) :: "" :: format_blocks fmt rest [] none
        else format_blocks fmt rest cur2 (some blockStart)

/-- Python regex split `(?<=[.!?])\s+` of `_format_simple_text`: cut at
every whitespace run whose preceding character is `.`, `!` or `?`,
consuming the run. -/
def splitSentencesAux : List Char → List Char → List (List Char)
  | [], cur => [cur.reverse]
  | c :: cs, cur =>
      if c.isWhitespace &&
          (match cur with
           | p :: _ => p == '.' || p == '!' || p == '?'
           | [] => false) then
        cur.reverse :: splitSentencesAux (cs.dropWhile Char.isWhitespace) []
      else splitSentencesAux cs (c :: cur)
termination_by l _ => l.length
decreasing_by
  · simp only [List.length_cons]
    exact Nat.lt_succ_of_le (List.dropWhile_suffix _).sublist.length_le
  · simp

/-- Whether the last accumulated output line is the empty string (the
source condition `formatted_lines and formatted_lines[-1] == ""`). -/
def lastLineBlank (lines : List String) : Bool :=
  match lines.getLast? with
  | some "" => true
  | _ => false

/-- The paragraph loop of `_format_simple_text` (lines 744-782): sentence
accumulation with character/word thresholds, the `!`/`?` break after two
accumulated sentences, four-space indentation when the previous output
line is blank, and the leftover-paragraph flush after the loop. -/
def simple_paragraphs :
    List String → List String → List String → Nat → Nat → List String
  | [], lines, cur, _, _ =>
      if cur ≠ [] then
        let p := pyJoin " " cur
        lines ++ [if lastLineBlank lines then "    " ++ p else p, ""]
      else lines
  | s :: rest, lines, cur, cc, wc =>
      if pyStrip s ≠ "" then
        let cur2 := cur ++ [pyStrip s]
        let cc2 := cc + s.data.length
        let wc2 := wc + (pySplit s).length
        let endsBang :=
          match (pyRstrip s).data.getLast? with
          | some c => c == '!' || c == '?'
          | none => false
        if cc2 > 300 || wc2 > 50 || (decide (cur2.length > 2) && endsBang) then
          let p := pyJoin " " cur2
          simple_paragraphs rest
            (lines ++ [if lastLineBlank lines then "    " ++ p else p, ""]) [] 0 0
        else simple_paragraphs rest lines cur2 cc2 wc2
      else simple_paragraphs rest lines cur cc wc

/-- Embedding of `_format_simple_text` (lines 717-792). -/
def format_simple_text (text : String) : String :=
  let header := [bannerLine, "TRANSCRIPCIÓN DE LLAMADA", bannerLine, ""]
  let sentences := (splitSentencesAux text.data []).map fun l => (⟨l⟩ : String)
  let body := simple_paragraphs sentences header [] 0 0
  let stats :=
    [bannerLine, "RESUMEN:",
     "- Total de caracteres: " ++ pyThousands text.data.length,
     "- Total de palabras: " ++ pyThousands (pySplit text).length,
     "- Oraciones aproximadas: " ++ sentences.length.repr,
     bannerLine]
  pyJoin "\n" (body ++ stats)

/-- The `try`-body of `_format_transcript` (lines 536-610): segmented
layout with header, blocks and summary footer when segments are present,
paragraph layout otherwise. -/
def format_transcript_body (fmt : String → String) (r : WhisperResult) :
    String :=
  let full_text := pyStrip r.text
  let formatted_text := fmt full_text
  if r.segments.isEmpty then format_simple_text formatted_text
  else
    let header :=
      [bannerLine, "TRANSCRIPCIÓN DE LLAMADA CON TIMESTAMPS", bannerLine, ""]
    let blocks := format_blocks fmt r.segments [] none
    let lastEnd := ((r.segments.getLast?).map WhisperSeg.endMs).getD 0
    let stats :=
      [bannerLine, "RESUMEN:",
       "- Total de caracteres: " ++ pyThousands full_text.data.length,
       "- Total de palabras: " ++ pyThousands (pySplit full_text).length,
       "- Duración total: " ++ format_time lastEnd,
       "- Segmentos procesados: " ++ r.segments.length.repr,
       bannerLine]
    pyJoin "\n" (header ++ blocks ++ stats)

/-- Embedding of `_format_transcript` (lines 525-615): the body runs
inside `try`; `exn = some e` models any exception raised while
formatting, answered by the `except` handler with
`result.get("text", "").strip()`. -/
def format_transcript (fmt : String → String) (r : WhisperResult)
    (exn : Option String) : String :=
  match exn with
  | some _ => pyStrip r.text
  | none => format_transcript_body fmt r

/-- C7: whatever exception occurs while formatting, the formatter returns
the raw (merely whitespace-stripped) text of the transcription result —
the function is total, so nothing propagates to the caller. -/
theorem format_transcript_degrades_to_raw_text (fmt : String → String)
    (r : WhisperResult) (e : String) :
    format_transcript fmt r (some e) = pyStrip r.text := rfl

/-! ## Theorems for C5 — engine runtime-error classification -/

/-- C5 counterexample: during the aggressive-conversion strategy a
runtime error whose message names a tensor problem routes to SAFE MODE,
not to segment-split, and a reshape-only message is re-raised rather than
classified recoverable-by-splitting — the claim of a uniform
tensor/shape/reshape → segment-split rule fails on this strategy. -/
theorem engine_error_classification_counterexample :
    aggressive_runtime_route "Tensor shapes mismatch" = ErrRoute.toSafeMode ∧
      ErrRoute.toSafeMode ≠ ErrRoute.toSegmentSplit ∧
      aggressive_runtime_route "cannot reshape array of size 0"
        = ErrRoute.reraised := by
  decide

/-- C5 amended: inside the safe-mode strategy a runtime error whose
lower-cased message contains "reshape", "tensor" or "0 elements" jumps to
segment-split (and the orchestrator result becomes the segment-split
result); any other runtime error fails the strategy without a retry, so
the call fails.  Inside the aggressive-conversion strategy exactly the
messages containing "tensor" are treated as recoverable, and they route
to safe mode, not to segment-split; all other runtime errors there are
re-raised. -/
theorem engine_error_routing (msg : String) (env : FallbackEnv)
    (hv : env.valid = true)
    (he : env.outcome .safeMode = .rtErr msg) :
    (tensorLike msg = true →
        safe_mode_runtime_route msg = .toSegmentSplit ∧
        (transcribe_with_fallbacks env).2 = [.safeMode, .segmentSplit] ∧
        (transcribe_with_fallbacks env).1 = segmentSplitResult env) ∧
      (tensorLike msg = false →
        safe_mode_runtime_route msg = .strategyFails ∧
        (transcribe_with_fallbacks env).1 = none ∧
        (transcribe_with_fallbacks env).2 = [.safeMode]) ∧
      (aggressive_runtime_route msg = .toSafeMode ↔
        pyContains (pyLower msg) "tensor" = true) := by
  refine ⟨fun ht => ?_, fun ht => ?_, ?_⟩
  · refine ⟨by simp [safe_mode_runtime_route, ht], ?_, ?_⟩ <;>
      simp [transcribe_with_fallbacks, transcribe_with_safe_mode, he, hv,
        safe_mode_runtime_route, ht]
  · refine ⟨by simp [safe_mode_runtime_route, ht], ?_, ?_⟩ <;>
      simp [transcribe_with_fallbacks, transcribe_with_safe_mode, he, hv,
        safe_mode_runtime_route, ht]
  · constructor
    · intro h
      by_contra hc
      simp only [Bool.not_eq_true] at hc
      simp [aggressive_runtime_route, hc] at h
    · intro h
      simp [aggressive_runtime_route, h]

/-- Concrete environment for the C5 witness: safe mode raises a tensor
error and segment-split succeeds. -/
def envTensorErr : FallbackEnv where
  valid := true
  outcome := fun s =>
    match s with
    | .safeMode => .rtErr "cannot reshape tensor of 0 elements"
    | .segmentSplit => .ok "S"
    | _ => .failed

/-- Witness for the amended C5 statement: on a concrete tensor error the
orchestrator escalates from safe mode to segment-split. -/
theorem engine_error_routing_witness :
    envTensorErr.valid = true ∧
      (transcribe_with_fallbacks envTensorErr).2
        = [Strat.safeMode, Strat.segmentSplit] :=
  ⟨rfl,
   ((engine_error_routing "cannot reshape tensor of 0 elements" envTensorErr
      rfl rfl).1 (by decide)).2.1⟩

/-! ## C4 — `AudioProcessor._transcribe_by_segments` (lines 1175-1274)
and `_validate_audio_segment` (lines 1157-1173)

The normalized waveform is embedded as its total length in milliseconds
plus a per-window energy oracle (`dB i` = the pydub `dBFS` of the i-th
30-second window).  The Whisper call on one exported window is an oracle
`eng : window index → SegOut`; every error path of the window loop
(empty exported temp file, tensor RuntimeError, any other exception)
makes the loop `continue`, i.e. the window is skipped, so they all embed
as `SegOut.failed`. -/

/-- The audio loaded by `AudioSegment.from_wav`, as seen by the
segment-split code: its length and the energy of each 30 s window. -/
structure SegAudio where
  totalMs : Nat
  dB : Nat → Int

/-- Number of windows produced by `range(0, len(audio), 30000)`. -/
def numWindows (a : SegAudio) : Nat := (a.totalMs + 29999) / 30000

/-- Length of window `i`, i.e. of the slice `audio[30000*i : 30000*i+30000]`. -/
def winLen (a : SegAudio) (i : Nat) : Nat := min 30000 (a.totalMs - 30000 * i)

/-- Embedding of `_validate_audio_segment`: a window passes iff it is at
least `min_duration_ms = 100` long and its `dBFS` is not below -60. -/
def validate_audio_segment (lenMs : Nat) (dB : Int) : Bool :=
  decide (100 ≤ lenMs) && decide (-60 ≤ dB)

/-- Outcome of the Whisper call on one exported window: the raw text of
the result, or any of the skipped error paths of the window loop. -/
inductive SegOut where
  | ok (text : String)
  | failed
  deriving Repr

/-- The `transcripts` accumulator of the window loop (lines 1203-1261):
invalid windows are skipped, erring windows are skipped, and the stripped
text of a successful window is appended only when non-empty. -/
def seg_texts (a : SegAudio) (eng : Nat → SegOut) : List String :=
  (List.range (numWindows a)).foldl
    (fun acc i =>
      if validate_audio_segment (winLen a i) (a.dB i) then
        match eng i with
        | .ok s => if pyStrip s ≠ "" then acc ++ [pyStrip s] else acc
        | .failed => acc
      else acc)
    []

/-- Embedding of `_transcribe_by_segments`: empty audio fails at once
(line 1188); otherwise the space-join of the collected window texts, or
None when no window produced text. -/
def transcribe_by_segments (a : SegAudio) (eng : Nat → SegOut) :
    Option String :=
  if a.totalMs == 0 then none
  else
    let ts := seg_texts a eng
    if ts.isEmpty then none else some (pyJoin " " ts)

/-- Specification-level description of what window `i` contributes: its
stripped text when the window is valid, transcribes, and the text is
non-empty; nothing otherwise. -/
def seg_window_text (a : SegAudio) (eng : Nat → SegOut) (i : Nat) :
    Option String :=
  if validate_audio_segment (winLen a i) (a.dB i) then
    match eng i with
    | .ok s => if pyStrip s ≠ "" then some (pyStrip s) else none
    | .failed => none
  else none

/-- The `condition_on_previous_text` argument of the per-window Whisper
call (line 1237): windows are transcribed without cross-window context. -/
def segment_condition_on_previous_text : Bool := false

/-- The `initial_prompt` argument of the per-window Whisper call
(lines 1224-1226). -/
def segment_initial_prompt : String :=
  "Continuación de la conversación telefónica con puntuación completa."

/-- A fold that appends `(f i).toList` for each index equals
`filterMap f`. -/
theorem foldl_opt_append_eq_filterMap (f : Nat → Option String) :
    ∀ (l : List Nat) (acc : List String),
      l.foldl (fun acc i => acc ++ (f i).toList) acc = acc ++ l.filterMap f
  | [], acc => by simp
  | i :: l, acc => by
      rw [List.foldl_cons, foldl_opt_append_eq_filterMap f l]
      cases h : f i <;> simp [List.filterMap_cons, h]

/-- The accumulator loop of `seg_texts` collects exactly the
`seg_window_text` contributions, in window order. -/
theorem seg_texts_eq_filterMap (a : SegAudio) (eng : Nat → SegOut) :
    seg_texts a eng
      = (List.range (numWindows a)).filterMap (seg_window_text a eng) := by
  have hstep : ∀ (acc : List String) (i : Nat),
      (if validate_audio_segment (winLen a i) (a.dB i) then
        match eng i with
        | .ok s => if pyStrip s ≠ "" then acc ++ [pyStrip s] else acc
        | .failed => acc
      else acc) = acc ++ (seg_window_text a eng i).toList := by
    intro acc i
    unfold seg_window_text
    by_cases hv : validate_audio_segment (winLen a i) (a.dB i)
    · simp only [hv, if_true]
      cases he : eng i with
      | ok s => by_cases ht : pyStrip s ≠ "" <;> simp [ht]
      | failed => simp
    · simp [hv]
  unfold seg_texts
  have : (fun (acc : List String) (i : Nat) =>
      if validate_audio_segment (winLen a i) (a.dB i) then
        match eng i with
        | .ok s => if pyStrip s ≠ "" then acc ++ [pyStrip s] else acc
        | .failed => acc
      else acc) = fun acc i => acc ++ (seg_window_text a eng i).toList := by
    funext acc i
    exact hstep acc i
  rw [this, foldl_opt_append_eq_filterMap]
  simp

/-- C4: segment-split cuts the audio into fixed 30-second windows
(window `i` covers the slice starting at `30000*i`, of length
`min 30000 (totalMs - 30000*i)`), discards windows under 100 ms or below
-60 dBFS, transcribes each kept window independently with
`condition_on_previous_text=False` and a short fixed prompt, skips any
window that errors, succeeds exactly when some window produced non-empty
text, and returns the space-join of those texts in window order. -/
theorem transcribe_by_segments_spec (a : SegAudio) (eng : Nat → SegOut) :
    ((transcribe_by_segments a eng).isSome ↔
        ∃ i < numWindows a, (seg_window_text a eng i).isSome) ∧
      (∀ s, transcribe_by_segments a eng = some s →
        s = pyJoin " "
          ((List.range (numWindows a)).filterMap (seg_window_text a eng))) ∧
      (∀ i, validate_audio_segment (winLen a i) (a.dB i) = false →
        seg_window_text a eng i = none) ∧
      segment_condition_on_previous_text = false ∧
      segment_initial_prompt ≠ "" := by
  refine ⟨?_, ?_, ?_, rfl, by decide⟩
  · by_cases h0 : a.totalMs = 0
    · have hnw : numWindows a = 0 := by
        simp [numWindows, h0]
      constructor
      · intro h
        simp [transcribe_by_segments, h0] at h
      · rintro ⟨i, hi, _⟩
        omega
    · have h0' : (a.totalMs == 0) = false := by
        simp [h0]
      rw [transcribe_by_segments]
      simp only [h0', Bool.false_eq_true, if_false]
      rw [seg_texts_eq_filterMap]
      constructor
      · intro h
        by_contra hne
        push_neg at hne
        have hfm : (List.range (numWindows a)).filterMap (seg_window_text a eng)
            = [] := by
          rw [List.filterMap_eq_nil_iff]
          intro i hi
          have hi' := List.mem_range.mp hi
          exact Option.not_isSome_iff_eq_none.mp (hne i hi')
        simp [hfm] at h
      · rintro ⟨i, hi, hsome⟩
        have hne : (List.range (numWindows a)).filterMap (seg_window_text a eng)
            ≠ [] := by
          intro hfm
          rw [List.filterMap_eq_nil_iff] at hfm
          have := hfm i (List.mem_range.mpr hi)
          simp [this] at hsome
        simp [hne]
  · intro s hs
    by_cases h0 : a.totalMs = 0
    · simp [transcribe_by_segments, h0] at hs
    · have h0' : (a.totalMs == 0) = false := by
        simp [h0]
      rw [transcribe_by_segments] at hs
      simp only [h0', Bool.false_eq_true, if_false] at hs
      rw [seg_texts_eq_filterMap] at hs
      by_cases hne :
          (List.range (numWindows a)).filterMap (seg_window_text a eng) = []
      · simp [hne] at hs
      · simp only [List.isEmpty_iff, hne, if_false] at hs
        exact (Option.some_inj.mp hs).symm
  · intro i hv
    simp [seg_window_text, hv]

/-- 65-second demo audio: three windows of 30 s, 30 s and 5 s, all loud
enough. -/
def demoSegAudio : SegAudio := ⟨65000, fun _ => 0⟩

/-- Demo engine: window 0 gives text with surrounding spaces, window 1
gives only silence (empty text), window 2 gives text. -/
def demoSegEng : Nat → SegOut := fun i =>
  if i == 0 then .ok " hola " else if i == 1 then .ok "" else .ok "mundo"

/-- Witness for C4: on the demo audio the two non-empty windows are
joined by a single space, matching the filterMap description. -/
theorem transcribe_by_segments_spec_witness :
    transcribe_by_segments demoSegAudio demoSegEng = some "hola mundo" ∧
      "hola mundo" = pyJoin " "
        ((List.range (numWindows demoSegAudio)).filterMap
          (seg_window_text demoSegAudio demoSegEng)) :=
  ⟨by decide,
   (transcribe_by_segments_spec demoSegAudio demoSegEng).2.1 "hola mundo"
     (by decide)⟩

/-! ## C3, C6 — `AudioProcessor.process_single_call` (lines 1407-1522)

Environment oracles, in the order the source consults them: whether
`datetime.fromisoformat` parses the call date (line 1442; on failure a
ValueError is raised at line 1446 and lands in the `except` block of
line 1515), the content of an already-existing transcript file at the
computed output path (line 1478), the download outcome, the
transcription outcome and the save outcome.  The trace counts how many
times `cleanup_call_files` and `download_audio` were invoked. -/

/-- Per-call oracles for `process_single_call`. -/
structure PscEnv where
  dateParseOk : Bool
  existingTranscript : Option String
  downloadOk : Bool
  transcript : Option String
  saveOk : Bool
  deriving Repr

/-- The result dict of `process_single_call` (lines 1421-1428), reduced
to the fields the claims talk about. -/
structure PscResult where
  call_id : Nat
  success : Bool
  transcript : Option String
  error : Option String
  deriving DecidableEq, Repr

/-- A `process_single_call` run: its result plus the number of
`cleanup_call_files` invocations and of `download_audio` invocations. -/
structure PscTrace where
  result : PscResult
  cleanupCalls : Nat
  downloads : Nat
  deriving DecidableEq, Repr

/-- Embedding of `process_single_call`.  Control flow of the source:
date-parse failure raises, reaching the `except` handler which runs
cleanup; an existing transcript returns early WITHOUT cleanup; download,
transcription and save failures return early WITHOUT cleanup; only the
fully successful path runs cleanup (line 1510), and the `except` path
runs it (line 1520).  No path runs cleanup twice. -/
def process_single_call (callId : Nat) (env : PscEnv) : PscTrace :=
  if !env.dateParseOk then
    { result := ⟨callId, false, none, some "Formato de fecha no válido"⟩,
      cleanupCalls := 1, downloads := 0 }
  else
    match env.existingTranscript with
    | some content =>
        { result := ⟨callId, true, some content, none⟩,
          cleanupCalls := 0, downloads := 0 }
    | none =>
        if !env.downloadOk then
          { result := ⟨callId, false, none, some "Error descargando audio"⟩,
            cleanupCalls := 0, downloads := 1 }
        else
          match env.transcript with
          | none =>
              { result := ⟨callId, false, none, some "Error transcribiendo audio"⟩,
                cleanupCalls := 0, downloads := 1 }
          | some t =>
              if !env.saveOk then
                { result := ⟨callId, false, some t,
                    some "Error guardando transcripción"⟩,
                  cleanupCalls := 0, downloads := 1 }
              else
                { result := ⟨callId, true, some t, none⟩,
                  cleanupCalls := 1, downloads := 1 }

/-- Environment of a call whose audio download fails. -/
def envDownloadFail : PscEnv :=
  { dateParseOk := true, existingTranscript := none, downloadOk := false,
    transcript := none, saveOk := true }

/-- Environment of a fully successful call. -/
def envAllOk : PscEnv :=
  { dateParseOk := true, existingTranscript := none, downloadOk := true,
    transcript := some "texto", saveOk := true }

/-- Environment of a call whose transcription fails. -/
def envTranscribeFail : PscEnv :=
  { dateParseOk := true, existingTranscript := none, downloadOk := true,
    transcript := none, saveOk := true }

/-- Environment of a call whose transcript save fails. -/
def envSaveFail : PscEnv :=
  { dateParseOk := true, existingTranscript := none, downloadOk := true,
    transcript := some "texto", saveOk := false }

/-- C3 failing input: on a call whose download (or transcription, or
transcript save) fails, `process_single_call` returns early and
`cleanup_call_files` is never invoked — 0 times, not once — although the
source documents cleanup as running always, success or failure
(docstring of `cleanup_call_files`, line 1759, and the comment at line
1509).  On the fully successful path and on the exception path it runs
exactly once, never twice. -/
theorem cleanup_not_run_on_early_failure :
    (process_single_call 42 envDownloadFail).cleanupCalls = 0 ∧
      (process_single_call 42 envDownloadFail).result.success = false ∧
      (process_single_call 42 envTranscribeFail).cleanupCalls = 0 ∧
      (process_single_call 42 envSaveFail).cleanupCalls = 0 ∧
      (process_single_call 42 envAllOk).cleanupCalls = 1 ∧
      (process_single_call 42
        { envAllOk with dateParseOk := false }).cleanupCalls = 1 := by
  decide

/-- C6: when the transcript file already exists at the computed output
path (and the record has a parseable date, without which no output path
is computed), `process_single_call` skips download and transcription,
performs no download at all, and returns success with the existing file
content unchanged as the transcript. -/
theorem process_single_call_skip_on_existing (callId : Nat) (env : PscEnv)
    (content : String)
    (hd : env.dateParseOk = true)
    (he : env.existingTranscript = some content) :
    (process_single_call callId env).result.success = true ∧
      (process_single_call callId env).result.transcript = some content ∧
      (process_single_call callId env).downloads = 0 ∧
      (process_single_call callId env).result.call_id = callId := by
  simp [process_single_call, hd, he]

/-- Witness for C6 at a concrete environment with an existing
transcript. -/
theorem process_single_call_skip_on_existing_witness :
    ({ envAllOk with existingTranscript := some "viejo" } : PscEnv).dateParseOk
        = true ∧
      (process_single_call 7
        { envAllOk with existingTranscript := some "viejo" }).result.transcript
        = some "viejo" :=
  ⟨rfl,
   (process_single_call_skip_on_existing 7
      { envAllOk with existingTranscript := some "viejo" } "viejo"
      rfl rfl).2.1⟩

/-! ## C1 — `AudioProcessor.process_calls_batch` (lines 1557-1646),
`_process_calls_in_chunks` (lines 1660-1695) and `_process_chunk`
(lines 1697-1754)

The thread pool is embedded by separating what is nondeterministic from
what is not: each submitted task is tagged with its input index `i` (the
source stores `(i, call_data)` under the future); the `as_completed`
loop observes the futures in an ARBITRARY completion order, embedded as
a list `order` of indices; `future.result()` either returns the
`process_single_call` dict — whose `call_id` field the source sets from
`call_data.get('id')` on every path — or raises, in which case the
handler of line 1625 builds a failure entry, again with
`call_data.get('id')`.  The index→result dict becomes a function
`Nat → Option BatchEntry` built by folding over the completion order,
and the final re-serialization maps over `range(len(calls_data))`,
substituting the placeholder failure entry for a missing index. -/

/-- One input call record, reduced to the field the batch layer reads. -/
structure CallRecord where
  id : Nat
  deriving DecidableEq, Repr, Inhabited

/-- One entry of the list `process_calls_batch` returns. -/
structure BatchEntry where
  call_id : Nat
  success : Bool
  error : Option String
  deriving DecidableEq, Repr, Inhabited

/-- How one submitted future resolves: the fields of the
`process_single_call` result dict (besides `call_id`, which the source
sets from the input record on every path), or an unexpected exception
re-raised by `future.result()`. -/
inductive TaskOut where
  | res (success : Bool) (err : Option String)
  | raised (msg : String)
  deriving Repr

/-- The entry stored in `results_dict` for one completed future: the
task result keyed by the input record (lines 1617-1618), or the
exception placeholder of lines 1627-1631. -/
def future_entry (c : CallRecord) (t : TaskOut) : BatchEntry :=
  match t with
  | .res s e => ⟨c.id, s, e⟩
  | .raised m => ⟨c.id, false, some m⟩

/-- The `results_dict` after the `as_completed` loop: entries written in
completion order `order`, each from the future tagged with that index. -/
def results_dict (calls : List CallRecord) (out : Nat → TaskOut)
    (order : List Nat) : Nat → Option BatchEntry :=
  order.foldl
    (fun m i => fun j =>
      if j = i then some (future_entry (calls.getD i default) (out i)) else m j)
    (fun _ => none)

/-- The re-serialization loop (lines 1634-1643 and 1744-1752): walk
`range(len(calls))` in order, take the dict entry, or the placeholder
failure entry with message `placeholderMsg` when the index is missing. -/
def rebuild (calls : List CallRecord) (m : Nat → Option BatchEntry)
    (placeholderMsg : String) : List BatchEntry :=
  (List.range calls.length).map fun i =>
    match m i with
    | some e => e
    | none => ⟨(calls.getD i default).id, false, some placeholderMsg⟩

/-- Embedding of the direct (un-chunked) path of `process_calls_batch`. -/
def process_calls_batch_direct (calls : List CallRecord)
    (out : Nat → TaskOut) (order : List Nat) : List BatchEntry :=
  rebuild calls (results_dict calls out order) "Resultado no encontrado"

/-- Embedding of `_process_chunk`: identical loop, chunk-local indices,
chunk-specific placeholder message. -/
def process_chunk (chunk : List CallRecord) (out : Nat → TaskOut)
    (order : List Nat) : List BatchEntry :=
  rebuild chunk (results_dict chunk out order) "Resultado no encontrado en chunk"

/-- Embedding of `_process_calls_in_chunks`: slices of `k` records are
processed one after the other, each chunk fully drained (its own
completion order `orders chunkIdx`, its own chunk-local outcomes
`out chunkIdx`) before the next starts; results are concatenated.  The
source guards `k = 0` structurally (`range(0, n, 0)` would raise). -/
def process_calls_in_chunks (k : Nat) (calls : List CallRecord)
    (out : Nat → Nat → TaskOut) (orders : Nat → List Nat)
    (chunkIdx : Nat) : List BatchEntry :=
  if k = 0 then []
  else if h : calls.isEmpty then []
  else
    process_chunk (calls.take k) (out chunkIdx) (orders chunkIdx)
      ++ process_calls_in_chunks k (calls.drop k) out orders (chunkIdx + 1)
termination_by calls.length
decreasing_by
  simp only [List.isEmpty_iff] at h
  have h1 : 0 < calls.length := List.length_pos.mpr h
  rw [List.length_drop]
  omega

/-- Every entry of `future_entry` carries the id of the record it was
keyed with. -/
theorem future_entry_call_id (c : CallRecord) (t : TaskOut) :
    (future_entry c t).call_id = c.id := by
  cases t <;> rfl

/-- Dict invariant: whatever the completion order, the entry stored at
index `j` (when present) carries the id of input record `j`. -/
theorem results_dict_call_id (calls : List CallRecord) (out : Nat → TaskOut) :
    ∀ (order : List Nat) (m : Nat → Option BatchEntry),
      (∀ j e, m j = some e → e.call_id = (calls.getD j default).id) →
      ∀ j e,
        (order.foldl
          (fun m i => fun j =>
            if j = i then some (future_entry (calls.getD i default) (out i))
            else m j) m) j = some e →
        e.call_id = (calls.getD j default).id
  | [], m, hm => hm
  | i :: order, m, hm => by
      refine results_dict_call_id calls out order _ ?_
      intro j e hj
      by_cases hji : j = i
      · subst hji
        simp only [if_pos rfl] at hj
        rw [← Option.some_inj.mp hj]
        exact future_entry_call_id _ _
      · simp only [if_neg hji] at hj
        exact hm j e hj

/-- The rebuilt list always has one entry per input record, and entry `i`
carries the id of input record `i`, provided the dict satisfies the
invariant above. -/
theorem rebuild_spec (calls : List CallRecord) (m : Nat → Option BatchEntry)
    (msg : String)
    (hm : ∀ j e, m j = some e → e.call_id = (calls.getD j default).id) :
    (rebuild calls m msg).length = calls.length ∧
      ∀ (i : Nat) (e : BatchEntry) (c : CallRecord),
        (rebuild calls m msg)[i]? = some e → calls[i]? = some c →
        e.call_id = c.id := by
  constructor
  · simp [rebuild]
  · intro i e c hres hcall
    have hi : i < calls.length := by
      by_contra hni
      rw [List.getElem?_eq_none (Nat.le_of_not_lt hni)] at hcall
      exact Option.noConfusion hcall
    have hgd : calls.getD i default = c := by
      rw [List.getD_eq_getElem?_getD, hcall]
      rfl
    rw [rebuild, List.getElem?_map, List.getElem?_range hi] at hres
    simp only [Option.map_some'] at hres
    cases hmi : m i with
    | some e0 =>
        rw [hmi] at hres
        have he : e = e0 := by
          exact (Option.some_inj.mp hres).symm
        rw [he, ← hgd]
        exact hm i e0 hmi
    | none =>
        rw [hmi] at hres
        have he : e = ⟨(calls.getD i default).id, false, some msg⟩ :=
          (Option.some_inj.mp hres).symm
        rw [he, ← hgd]

/-- Direct-path correctness, as a reusable lemma. -/
theorem process_calls_batch_direct_spec (calls : List CallRecord)
    (out : Nat → TaskOut) (order : List Nat) :
    (process_calls_batch_direct calls out order).length = calls.length ∧
      ∀ (i : Nat) (e : BatchEntry) (c : CallRecord),
        (process_calls_batch_direct calls out order)[i]? = some e →
        calls[i]? = some c → e.call_id = c.id :=
  rebuild_spec calls _ _
    (results_dict_call_id calls out order _ (fun _ _ h => Option.noConfusion h))

/-- Chunk-path correctness, as a reusable lemma. -/
theorem process_chunk_spec (chunk : List CallRecord) (out : Nat → TaskOut)
    (order : List Nat) :
    (process_chunk chunk out order).length = chunk.length ∧
      ∀ (i : Nat) (e : BatchEntry) (c : CallRecord),
        (process_chunk chunk out order)[i]? = some e →
        chunk[i]? = some c → e.call_id = c.id :=
  rebuild_spec chunk _ _
    (results_dict_call_id chunk out order _ (fun _ _ h => Option.noConfusion h))

/-- Chunked-path correctness for any chunk size `k > 0`, any chunk-local
completion orders, and any outcomes, by strong induction on the number of
remaining records. -/
theorem process_calls_in_chunks_spec (k : Nat) (hk : 0 < k) :
    ∀ (n : Nat) (calls : List CallRecord) (out : Nat → Nat → TaskOut)
      (orders : Nat → List Nat) (chunkIdx : Nat), calls.length = n →
      (process_calls_in_chunks k calls out orders chunkIdx).length
          = calls.length ∧
        ∀ (i : Nat) (e : BatchEntry) (c : CallRecord),
          (process_calls_in_chunks k calls out orders chunkIdx)[i]? = some e →
          calls[i]? = some c → e.call_id = c.id := by
  intro n
  induction n using Nat.strong_induction_on with
  | _ n ih =>
    intro calls out orders chunkIdx hn
    rw [process_calls_in_chunks]
    have hk0 : ¬(k = 0) := Nat.pos_iff_ne_zero.mp hk
    by_cases hemp : calls.isEmpty
    · have : calls = [] := List.isEmpty_iff.mp hemp
      subst this
      simp [hk0]
    · rw [if_neg hk0, dif_neg hemp]
      have hlenpos : 0 < calls.length :=
        List.length_pos.mpr (fun h => hemp (List.isEmpty_iff.mpr h))
      have hdrop : (calls.drop k).length < n := by
        rw [List.length_drop]
        omega
      obtain ⟨ihlen, ihpos⟩ :=
        ih (calls.drop k).length hdrop (calls.drop k) out orders
          (chunkIdx + 1) rfl
      obtain ⟨chlen, chpos⟩ :=
        process_chunk_spec (calls.take k) (out chunkIdx) (orders chunkIdx)
      have htake : (calls.take k).length = min k calls.length :=
        List.length_take ..
      constructor
      · rw [List.length_append, chlen, ihlen, htake, List.length_drop]
        omega
      · intro i e c hres hcall
        have hic : i < calls.length := by
          by_contra hni
          rw [List.getElem?_eq_none (Nat.le_of_not_lt hni)] at hcall
          exact Option.noConfusion hcall
        by_cases hi : i < (process_chunk (calls.take k) (out chunkIdx)
            (orders chunkIdx)).length
        · rw [List.getElem?_append, if_pos hi] at hres
          have hik : i < k := by
            rw [chlen, htake] at hi
            omega
          refine chpos i e c hres ?_
          rw [List.getElem?_take, if_pos hik]
          exact hcall
        · push_neg at hi
          rw [List.getElem?_append, if_neg (Nat.not_lt.mpr hi)] at hres
          have hkle : k ≤ calls.length := by
            rw [chlen, htake] at hi
            omega
          have hik : k ≤ i := by
            rw [chlen, htake] at hi
            omega
          refine ihpos (i - (process_chunk (calls.take k) (out chunkIdx)
            (orders chunkIdx)).length) e c hres ?_
          rw [chlen, htake, Nat.min_eq_left hkle]
          rw [List.getElem?_drop]
          have : k + (i - k) = i := by omega
          rw [this]
          exact hcall

/-- C1: on the direct path and on the chunked path alike, for any
completion order of the concurrent per-call tasks (including orders that
miss an index, for which the placeholder failure entry is substituted)
and any per-task outcomes (normal results or raised exceptions), the
batch returns exactly one entry per input record and entry `i` carries
the id of input record `i`. -/
theorem process_calls_batch_ordering (calls : List CallRecord)
    (out : Nat → TaskOut) (order : List Nat) (k : Nat)
    (outc : Nat → Nat → TaskOut) (orders : Nat → List Nat) (hk : 0 < k) :
    ((process_calls_batch_direct calls out order).length = calls.length ∧
        ∀ (i : Nat) (e : BatchEntry) (c : CallRecord),
          (process_calls_batch_direct calls out order)[i]? = some e →
          calls[i]? = some c → e.call_id = c.id) ∧
      ((process_calls_in_chunks k calls outc orders 0).length = calls.length ∧
        ∀ (i : Nat) (e : BatchEntry) (c : CallRecord),
          (process_calls_in_chunks k calls outc orders 0)[i]? = some e →
          calls[i]? = some c → e.call_id = c.id) :=
  ⟨process_calls_batch_direct_spec calls out order,
   process_calls_in_chunks_spec k hk calls.length calls outc orders 0 rfl⟩

/-- Three demo records with distinct ids. -/
def demoCalls : List CallRecord := [⟨7⟩, ⟨3⟩, ⟨9⟩]

/-- Demo outcomes: the middle task raises, the others complete. -/
def demoOut : Nat → TaskOut := fun i =>
  if i == 1 then .raised "worker died" else .res true none

/-- Witness for C1 at a concrete three-record batch with a reversed
completion order, a missing index (2 never completes), an exception at
index 1, and chunk size 2: lengths and per-index call ids follow from the
theorem with every hypothesis discharged concretely. -/
theorem process_calls_batch_ordering_witness :
    (0 : Nat) < 2 ∧
      (process_calls_batch_direct demoCalls demoOut [1, 0]).length = 3 ∧
      ((process_calls_batch_direct demoCalls demoOut [1, 0])[2]?.map
        BatchEntry.call_id) = some 9 := by
  have h := process_calls_batch_ordering demoCalls demoOut [1, 0] 2
    (fun _ j => demoOut j) (fun _ => [0, 1]) (by decide)
  refine ⟨by decide, h.1.1.trans (by decide), ?_⟩
  have hc : demoCalls[2]? = some ⟨9⟩ := by decide
  have he : (process_calls_batch_direct demoCalls demoOut [1, 0])[2]?
      = some ⟨9, false, some "Resultado no encontrado"⟩ := by decide
  have := h.1.2 2 ⟨9, false, some "Resultado no encontrado"⟩ ⟨9⟩ he hc
  rw [he]
  simp [this]
